import Mathlib

/-
Verification development for the zxp-manager plugin lifecycle engine.

The Rust source is shallowly embedded: pure functions become Lean
functions; filesystem and archive effects are made explicit as
environment records whose fields hold the results the OS or the zip
container would return; fallible code returns Except.
-/

namespace ZxpManager

/-- Error type of data_operations.rs (enum PluginError). -/
inductive PluginError
  | DirectoryNotFound
  | PermissionDenied
  | ManifestNotFound
  | InvalidManifest
deriving DecidableEq, Repr

/-- Error type of file_operations.rs (enum FileOperationError). -/
inductive FileOperationError
  | DialogCancelled
  | InvalidExtension
  | FileNotFound
  | PermissionDenied
  | InvalidZip
  | ExtractError
deriving DecidableEq, Repr

/-- struct PluginInfo of data_operations.rs: the identity parsed from a
manifest document. -/
structure PluginInfo where
  bundle_id : String
  name : String
  version : String
deriving DecidableEq, Repr

/-- The stream of XML events that quick_xml::Reader::read_event_into
delivers to parse_manifest_xml, abstracted to what the loop inspects:
a Start event of an element named ExtensionManifest carries its decoded
attribute list (key, value) in document order; every other event
(text, End, Empty, comments, other Start elements) is `other`; a reader
or attribute decoding error is `readErr`. Attribute values are assumed
valid text (the Rust code decodes lossily and never fails on them). -/
inductive XmlEvent
  | startManifest (attrs : List (String × String))
  | other
  | readErr
deriving DecidableEq, Repr

/-- One iteration of the attribute loop of parse_manifest_xml
(data_operations.rs lines 137-151): the accumulator is
(bundle_id, name, version) and a matching key overwrites its slot. -/
def applyAttr (acc : String × String × String) (kv : String × String) :
    String × String × String :=
  if kv.1 = "ExtensionBundleId" then (kv.2, acc.2.1, acc.2.2)
  else if kv.1 = "ExtensionBundleName" then (acc.1, kv.2, acc.2.2)
  else if kv.1 = "ExtensionBundleVersion" then (acc.1, acc.2.1, kv.2)
  else acc

/-- The whole attribute loop over one ExtensionManifest start tag. -/
def collectAttrs (acc : String × String × String)
    (attrs : List (String × String)) : String × String × String :=
  attrs.foldl applyAttr acc

/-- Effect of one event on the accumulator: only a Start event of
ExtensionManifest touches it. -/
def stepEvent (acc : String × String × String) (ev : XmlEvent) :
    String × String × String :=
  match ev with
  | .startManifest attrs => collectAttrs acc attrs
  | _ => acc

/-- The event loop of parse_manifest_xml (lines 130-156): runs to Eof,
or fails with InvalidManifest at the first reader or attribute error. -/
def runEvents :
    String × String × String → List XmlEvent →
      Except PluginError (String × String × String)
  | acc, [] => .ok acc
  | _, .readErr :: _ => .error .InvalidManifest
  | acc, ev :: rest => runEvents (stepEvent acc ev) rest

/-- The accumulator after scanning an error-free event stream. -/
def accumEvents :
    String × String × String → List XmlEvent → String × String × String
  | acc, [] => acc
  | acc, ev :: rest => accumEvents (stepEvent acc ev) rest

/-- parse_manifest_xml of data_operations.rs (lines 117-172), over the
event stream of the document: after the loop, an empty bundle_id is
InvalidManifest; an empty name falls back to bundle_id; an empty
version falls back to the literal "Unknown". -/
def parse_manifest_xml (evs : List XmlEvent) :
    Except PluginError PluginInfo :=
  match runEvents ("", "", "") evs with
  | .error e => .error e
  | .ok (b, n, v) =>
    if b = "" then .error .InvalidManifest
    else .ok { bundle_id := b,
               name := if n = "" then b else n,
               version := if v = "" then "Unknown" else v }

/-- parse_manifest_xml including the initial fs::read_to_string: an
unreadable document (none) is ManifestNotFound. -/
def parse_manifest_file (doc : Option (List XmlEvent)) :
    Except PluginError PluginInfo :=
  match doc with
  | none => .error .ManifestNotFound
  | some evs => parse_manifest_xml evs

/-- Last value of the attribute `key` inside one attribute list,
threaded from a prior candidate. -/
def lastAttrIn (key : String) :
    Option String → List (String × String) → Option String
  | cur, [] => cur
  | cur, kv :: rest =>
      lastAttrIn key (if kv.1 = key then some kv.2 else cur) rest

/-- Last value of the attribute `key` over all ExtensionManifest start
tags of the stream, threaded from a prior candidate. -/
def lastAttrVal (key : String) :
    Option String → List XmlEvent → Option String
  | cur, [] => cur
  | cur, .startManifest attrs :: rest =>
      lastAttrVal key (lastAttrIn key cur attrs) rest
  | cur, _ :: rest => lastAttrVal key cur rest

/-- The value of the last occurrence of ExtensionBundleId on any
ExtensionManifest start tag of the document, or empty if none. -/
def lastBundleId (evs : List XmlEvent) : String :=
  (lastAttrVal "ExtensionBundleId" (some "") evs).getD ""

/-- The value of the last occurrence of ExtensionBundleName, or empty. -/
def lastBundleName (evs : List XmlEvent) : String :=
  (lastAttrVal "ExtensionBundleName" (some "") evs).getD ""

/-- The value of the last occurrence of ExtensionBundleVersion, or empty. -/
def lastBundleVersion (evs : List XmlEvent) : String :=
  (lastAttrVal "ExtensionBundleVersion" (some "") evs).getD ""

/-- The bundle id of the FIRST ExtensionManifest start tag whose
ExtensionBundleId attribute is non-empty (the element the spec calls
the first qualifying occurrence). -/
def firstNonEmptyId : List XmlEvent → Option String
  | [] => none
  | .startManifest attrs :: rest =>
      match lastAttrIn "ExtensionBundleId" none attrs with
      | some v => if v = "" then firstNonEmptyId rest else some v
      | none => firstNonEmptyId rest
  | _ :: rest => firstNonEmptyId rest

/-- Whether the document contains any ExtensionManifest start tag
carrying a non-empty ExtensionBundleId attribute. -/
def hasNonEmptyId (evs : List XmlEvent) : Bool :=
  evs.any fun ev =>
    match ev with
    | .startManifest attrs =>
        attrs.any fun kv => kv.1 == "ExtensionBundleId" && !(kv.2 == "")
    | _ => false

/-- enum PluginType of data_operations.rs: Native for bundle ids with
the reserved Adobe ends, Installed for third-party plugins. -/
inductive PluginType
  | Native
  | Installed
deriving DecidableEq, Repr

/-- Whether the first list is a prefix of the second (the char-level
meaning of starts_with on UTF-8 strings). -/
def isPrefixList : List Char → List Char → Bool
  | [], _ => true
  | _ :: _, [] => false
  | c :: cs, d :: ds => c == d && isPrefixList cs ds

/-- starts_with of Rust str on the embedded strings. -/
def startsWithStr (s pre : String) : Bool :=
  isPrefixList pre.data s.data

/-- determine_plugin_type of data_operations.rs (lines 185-191). -/
def determine_plugin_type (bundle_id : String) : PluginType :=
  if startsWithStr bundle_id "com.adobe." then .Native else .Installed

/-- Rounding of an exact rational num / den to the nearest integer with
ties to even. format_size formats (bytes as f64) / 1024.0 (or
1048576.0) with one decimal digit: the u64-to-f64 conversion and the
division by a power of two are exact below 2^53, and the Rust formatter
prints the decimal digit string nearest to the exact binary value,
breaking ties to even, so the printed digits equal this rounding of
bytes * 10 / den. -/
def roundHalfEven (num den : Nat) : Nat :=
  let q := num / den
  let r := num % den
  if 2 * r < den then q
  else if den < 2 * r then q + 1
  else if q % 2 = 0 then q else q + 1

/-- One branch of format_size: the value bytes / den printed with one
decimal digit and a unit suffix. -/
def fmtOneDec (bytes den : Nat) (unit : String) : String :=
  let d := roundHalfEven (bytes * 10) den
  toString (d / 10) ++ "." ++ toString (d % 10) ++ " " ++ unit

/-- format_size of data_operations.rs (lines 214-222): base-1024
thresholds, bytes below 1024, kilobytes below 1024 * 1024, megabytes
above, the latter two with one decimal digit. -/
def format_size (bytes : Nat) : String :=
  if bytes < 1024 then toString bytes ++ " B"
  else if bytes < 1024 * 1024 then fmtOneDec bytes 1024 "KB"
  else fmtOneDec bytes (1024 * 1024) "MB"

/-- calculate_folder_size of data_operations.rs (lines 174-182): the
recursive byte sum when the walk succeeded, the placeholder "Unknown"
when it failed with an io error. -/
def calculate_folder_size (sizeRes : Option Nat) : String :=
  match sizeRes with
  | some bytes => format_size bytes
  | none => "Unknown"

/-- struct Plugin of data_operations.rs. -/
structure Plugin where
  name : String
  version : String
  size : String
  path : String
  plugin_type : PluginType
deriving DecidableEq, Repr

/-- One immediate child of the extension root as the scan observes it:
its path, whether it is a directory, whether CSXS/manifest.xml exists
under it (is_valid_plugin), the event stream of that manifest (none
when unreadable), and the byte sum of the directory walk (none when an
io error occurred). -/
structure DirEntry where
  path : String
  isDir : Bool
  hasManifest : Bool
  manifestDoc : Option (List XmlEvent)
  sizeRes : Option Nat

/-- The filesystem as scan_cep_plugins observes it: whether the fixed
extension root exists, and the outcome of reading it (the children, or
the io error mapped through From of std io Error, covering both the
read_dir call and the per-entry results). -/
structure ScanEnv where
  rootExists : Bool
  readDirRes : Except PluginError (List DirEntry)

/-- The per-candidate body of the scan loop (data_operations.rs lines
79-112): non-directories are skipped, candidates without a manifest are
skipped, manifest parse failures are logged and skipped, successes emit
a Plugin. -/
def processEntry (e : DirEntry) : Option Plugin :=
  if !e.isDir then none
  else if !e.hasManifest then none
  else
    match parse_manifest_file e.manifestDoc with
    | .ok info =>
        some { name := info.name
               version := info.version
               size := calculate_folder_size e.sizeRes
               path := e.path
               plugin_type := determine_plugin_type info.bundle_id }
    | .error _ => none

/-- scan_cep_plugins of data_operations.rs (lines 64-115): a missing
extension root yields an empty Ok, a failing directory read yields the
mapped error, otherwise the per-candidate loop runs. -/
def scan_cep_plugins (env : ScanEnv) : Except PluginError (List Plugin) :=
  if !env.rootExists then .ok []
  else
    match env.readDirRes with
    | .error e => .error e
    | .ok entries => .ok (entries.filterMap processEntry)

/-- Split of a file name at its last dot, as Path extension does in
Rust: returns the characters before and after the last dot, or none
when the name has no dot. -/
def splitLastDot : List Char → Option (List Char × List Char)
  | [] => none
  | c :: rest =>
    match splitLastDot rest with
    | some (before, after) => some (c :: before, after)
    | none => if c = '.' then some ([], rest) else none

/-- Path extension of Rust on a file name: the portion after the last
dot, none when there is no dot or when the name is a dotfile whose only
dot leads (then the whole name is the stem). -/
def pathExtension (name : String) : Option String :=
  match splitLastDot name.data with
  | some ([], _) => none
  | some (_, after) => some (String.mk after)
  | none => none

/-- ASCII code of a char with upper-case letters mapped to lower case,
mirroring what to_lowercase does on the ASCII range (the designated
archive extension is ASCII, so the comparison coincides). -/
def lowerCode (c : Char) : Nat :=
  if 65 ≤ c.toNat ∧ c.toNat ≤ 90 then c.toNat + 32 else c.toNat

/-- Case-insensitive equality of char lists (ASCII folding). -/
def eqIgnoreCase : List Char → List Char → Bool
  | [], [] => true
  | c :: cs, d :: ds => lowerCode c == lowerCode d && eqIgnoreCase cs ds
  | _, _ => false

/-- is_valid_zxp_extension of file_operations.rs (lines 130-137):
case-insensitive comparison of the extension against "zxp", false when
the extension is missing. -/
def is_valid_zxp_extension (name : String) : Bool :=
  match pathExtension name with
  | some ext => eqIgnoreCase ext.data "zxp".data
  | none => false

/-- The characters before the first occurrence of the pattern as a
substring, or the whole list when the pattern never occurs: the first
element Rust str split yields on the pattern. -/
def beforeSub (pat : List Char) : List Char → List Char
  | [] => []
  | c :: rest =>
    if isPrefixList pat (c :: rest) then []
    else c :: beforeSub pat rest

/-- The truncation of the bundle id at the first ".panel" marker done
at file_operations.rs lines 166-170: split(".panel").next() is the
prefix before the first occurrence, the whole id when absent. -/
def truncateAtPanel (s : String) : String :=
  String.mk (beforeSub ".panel".data s.data)

/-- extract_extension_id_from_zip of file_operations.rs (lines
139-173) over the archive as observed: none when CSXS/manifest.xml is
absent from the archive or unreadable (by_name or read_to_string fails,
both InvalidZip); tempWriteOk models the fs::write of the temporary
manifest copy (ExtractError on failure); a parse failure is InvalidZip;
on success the bundle id is truncated at the first ".panel". -/
def extract_extension_id_from_zip (tempWriteOk : Bool)
    (manifestDoc : Option (List XmlEvent)) :
    Except FileOperationError String :=
  match manifestDoc with
  | none => .error .InvalidZip
  | some evs =>
    if !tempWriteOk then .error .ExtractError
    else
      match parse_manifest_xml evs with
      | .error _ => .error .InvalidZip
      | .ok info => .ok (truncateAtPanel info.bundle_id)

/-- io error kinds distinguished by the error mapping of install_zxp
and remove_plugin. -/
inductive IoErrorKind
  | PermissionDenied
  | OtherErr
deriving DecidableEq, Repr

/-- The fixed extension root used by install_zxp (file_operations.rs
line 83). -/
def CEP_EXTENSIONS_PATH : String :=
  "/Library/Application Support/Adobe/CEP/extensions/"

/-- Depth-tracking worker of escapesTarget: components are processed
left to right, ".." pops one level and escapes at depth zero, "." and
empty components are neutral. -/
def escapesFrom : Nat → List String → Bool
  | _, [] => false
  | d, c :: rest =>
    if c = ".." then
      match d with
      | 0 => true
      | d + 1 => escapesFrom d rest
    else if c = "." || c = "" then escapesFrom d rest
    else escapesFrom (d + 1) rest

/-- Split of a character list at every slash, the components as
strings (the semantics of split on a one-char separator). -/
def splitSlashAux : List Char → List Char → List String
  | acc, [] => [String.mk acc.reverse]
  | acc, c :: rest =>
    if c = '/' then String.mk acc.reverse :: splitSlashAux [] rest
    else splitSlashAux (c :: acc) rest

/-- The slash-separated components of an archive entry name. -/
def splitSlash (s : String) : List String :=
  splitSlashAux [] s.data

/-- Whether the normalized relative path of an archive entry escapes
the extraction target via parent-directory traversal. -/
def escapesTarget (entryName : String) : Bool :=
  escapesFrom 0 (splitSlash entryName)

/-- Modelled from the spec: the archive extraction step of install_zxp
(file_operations.rs line 96) is performed by ZipArchive extract of the
zip crate, whose code is not part of this repository. The spec (section
4.3 step 7) mandates that every entry is extracted into the target
directory preserving relative paths and that an entry whose normalized
relative path would escape the target is rejected with ExtractError.
Entries are processed in order; the returned list holds the relative
paths materialized inside the target before the outcome. -/
def extractEntries :
    List String → List String → Except FileOperationError Unit × List String
  | written, [] => (.ok (), written)
  | written, e :: rest =>
    if escapesTarget e then (.error .ExtractError, written)
    else extractEntries (written ++ [e]) rest

/-- The archive and filesystem as install_zxp observes them: whether
the input path exists, its final path component, whether fs File open
succeeds (its failure is mapped to FileNotFound), whether ZipArchive
new succeeds (failure InvalidZip), the manifest entry of the archive,
the temporary-file write outcome, the create_dir_all outcome, and the
entry names of the archive. -/
structure InstallEnv where
  pathExists : Bool
  fileName : String
  openOk : Bool
  zipOk : Bool
  manifestDoc : Option (List XmlEvent)
  tempWriteOk : Bool
  createDirRes : Except IoErrorKind Unit
  entries : List String

/-- install_zxp after the existence and extension checks
(file_operations.rs lines 72-100): open the file, open the archive,
derive the extension id, create the target directory with the
PermissionDenied / ExtractError mapping, then extract. The second
component lists the entries materialized inside the target. -/
def openAndInstall (env : InstallEnv) :
    Except FileOperationError String × List String :=
  if !env.openOk then (.error .FileNotFound, [])
  else if !env.zipOk then (.error .InvalidZip, [])
  else
    match extract_extension_id_from_zip env.tempWriteOk env.manifestDoc with
    | .error e => (.error e, [])
    | .ok extId =>
      match env.createDirRes with
      | .error .PermissionDenied => (.error .PermissionDenied, [])
      | .error .OtherErr => (.error .ExtractError, [])
      | .ok () =>
        match extractEntries [] env.entries with
        | (.ok (), written) => (.ok (CEP_EXTENSIONS_PATH ++ extId), written)
        | (.error e, written) => (.error e, written)

/-- install_zxp of file_operations.rs (lines 54-101): a missing path is
FileNotFound, a wrong extension is InvalidExtension, then the archive
is opened and extracted. -/
def install_zxp (env : InstallEnv) :
    Except FileOperationError String × List String :=
  if !env.pathExists then (.error .FileNotFound, [])
  else if !(is_valid_zxp_extension env.fileName) then
    (.error .InvalidExtension, [])
  else openAndInstall env

/-- The filesystem as remove_plugin observes it: whether the path
exists, whether it is a directory, and the outcome of
fs::remove_dir_all on it. -/
structure RemoveEnv where
  pathExists : Bool
  isDir : Bool
  removeRes : Except IoErrorKind Unit

/-- remove_plugin of file_operations.rs (lines 103-127): a missing path
is FileNotFound, a non-directory is InvalidExtension (the kind the code
uses for "not a valid directory"), otherwise remove_dir_all runs with
the PermissionDenied / ExtractError mapping. The second component
records whether the recursive deletion was invoked at all. -/
def remove_plugin (env : RemoveEnv) :
    Except FileOperationError Unit × Bool :=
  if !env.pathExists then (.error .FileNotFound, false)
  else if !env.isDir then (.error .InvalidExtension, false)
  else
    match env.removeRes with
    | .ok () => (.ok (), true)
    | .error .PermissionDenied => (.error .PermissionDenied, true)
    | .error .OtherErr => (.error .ExtractError, true)

/-- enum MessageType of message.rs. -/
inductive MessageType
  | Success
  | Error
  | Info
  | None
deriving DecidableEq, Repr

/-- struct Message of message.rs: the single notification slot. -/
structure Message where
  content : String
  msg_type : MessageType
deriving DecidableEq, Repr

/-- The timeout chosen inside the spawned task of show_message
(message.rs lines 71-76), in seconds. -/
def timeoutSecs : MessageType → Nat
  | .Success => 3
  | .Error => 4
  | .Info => 5
  | .None => 0

/-- The process-wide notification state of message.rs: the MESSAGE
slot, the identity of the token held in MESSAGE_CANCEL_TOKEN (tokens
are numbered in creation order by nextId), the set of tokens on which
cancel has been called, and the spawned timers that have not yet
resolved, each with its token id and its timeout in seconds. -/
structure NCState where
  slot : Message
  nextId : Nat
  activeToken : Option Nat
  cancelled : List Nat
  pending : List (Nat × Nat)
deriving DecidableEq, Repr

/-- The initial state of the global signals (message.rs lines 21-28):
empty content, msg_type None, no token, no timer. -/
def initState : NCState :=
  { slot := { content := "", msg_type := .None }
    nextId := 0
    activeToken := none
    cancelled := []
    pending := [] }

/-- show_message of message.rs (lines 50-100), up to its suspension
point: cancel the token in MESSAGE_CANCEL_TOKEN if any, install a fresh
token, overwrite the slot immediately, and spawn a timer task carrying
the fresh token and the timeout of the new message type. -/
def show_message (content : String) (t : MessageType) (s : NCState) :
    NCState :=
  let cancelled :=
    match s.activeToken with
    | some tok => tok :: s.cancelled
    | none => s.cancelled
  { slot := { content := content, msg_type := t }
    nextId := s.nextId + 1
    activeToken := some s.nextId
    cancelled := cancelled
    pending := (s.nextId, timeoutSecs t) :: s.pending }

/-- Resolution of the spawned timer task holding token `tok`
(message.rs lines 80-98): if the token was cancelled before the sleep
completed, branch B runs and changes nothing; otherwise branch A clears
the slot to the empty None message and drops the global token. Either
way the task is done and leaves the pending set. A token with no
pending task resolves nothing. -/
def fireTimer (tok : Nat) (s : NCState) : NCState :=
  if s.pending.any (fun p => p.1 == tok) then
    if s.cancelled.contains tok then
      { s with pending := s.pending.filter (fun p => !(p.1 == tok)) }
    else
      { slot := { content := "", msg_type := .None }
        nextId := s.nextId
        activeToken := none
        cancelled := s.cancelled
        pending := s.pending.filter (fun p => !(p.1 == tok)) }
  else s

/-
Helper lemmas about the manifest event loop.
-/

lemma runEvents_no_err (evs : List XmlEvent) (h : XmlEvent.readErr ∉ evs) :
    ∀ acc, runEvents acc evs = .ok (accumEvents acc evs) := by
  induction evs with
  | nil => intro acc; rfl
  | cons ev rest ih =>
    intro acc
    have hrest : XmlEvent.readErr ∉ rest := fun hm => h (List.mem_cons_of_mem _ hm)
    cases ev with
    | readErr => exact absurd (List.mem_cons_self _ _) h
    | startManifest attrs =>
      simpa [runEvents, accumEvents, stepEvent] using ih hrest (collectAttrs acc attrs)
    | other =>
      simpa [runEvents, accumEvents, stepEvent] using ih hrest acc

lemma applyAttr_fst (acc : String × String × String) (kv : String × String) :
    (applyAttr acc kv).1 = if kv.1 = "ExtensionBundleId" then kv.2 else acc.1 := by
  rcases acc with ⟨b, n, v⟩
  unfold applyAttr
  split
  next h1 => simp [h1]
  next h1 =>
    split
    next h2 => simp [h1]
    next h2 =>
      split
      next h3 => simp [h1]
      next h3 => simp [h1]

lemma applyAttr_name (acc : String × String × String) (kv : String × String) :
    (applyAttr acc kv).2.1 = if kv.1 = "ExtensionBundleName" then kv.2 else acc.2.1 := by
  rcases acc with ⟨b, n, v⟩
  unfold applyAttr
  split
  next h1 => simp [h1]
  next h1 =>
    split
    next h2 => simp [h2]
    next h2 =>
      split
      next h3 => simp [h2]
      next h3 => simp [h2]

lemma applyAttr_version (acc : String × String × String) (kv : String × String) :
    (applyAttr acc kv).2.2 = if kv.1 = "ExtensionBundleVersion" then kv.2 else acc.2.2 := by
  rcases acc with ⟨b, n, v⟩
  unfold applyAttr
  split
  next h1 => simp [h1]
  next h1 =>
    split
    next h2 => simp [h2]
    next h2 =>
      split
      next h3 => simp [h3]
      next h3 => simp [h3]

lemma lastAttrIn_collect (key : String) (π : String × String × String → String)
    (hπ : ∀ acc kv, π (applyAttr acc kv) = if kv.1 = key then kv.2 else π acc) :
    ∀ (attrs : List (String × String)) (acc : String × String × String),
      lastAttrIn key (some (π acc)) attrs = some (π (collectAttrs acc attrs)) := by
  intro attrs
  induction attrs with
  | nil => intro acc; rfl
  | cons kv rest ih =>
    intro acc
    have hstep : (if kv.1 = key then some kv.2 else some (π acc)) =
        some (π (applyAttr acc kv)) := by
      rw [hπ]
      split <;> rfl
    calc lastAttrIn key (some (π acc)) (kv :: rest)
        = lastAttrIn key (if kv.1 = key then some kv.2 else some (π acc)) rest := rfl
      _ = lastAttrIn key (some (π (applyAttr acc kv))) rest := by rw [hstep]
      _ = some (π (collectAttrs (applyAttr acc kv) rest)) := ih (applyAttr acc kv)
      _ = some (π (collectAttrs acc (kv :: rest))) := rfl

lemma lastAttrVal_accum (key : String) (π : String × String × String → String)
    (hπ : ∀ acc kv, π (applyAttr acc kv) = if kv.1 = key then kv.2 else π acc) :
    ∀ (evs : List XmlEvent) (acc : String × String × String),
      lastAttrVal key (some (π acc)) evs = some (π (accumEvents acc evs)) := by
  intro evs
  induction evs with
  | nil => intro acc; rfl
  | cons ev rest ih =>
    intro acc
    cases ev with
    | startManifest attrs =>
      calc lastAttrVal key (some (π acc)) (XmlEvent.startManifest attrs :: rest)
          = lastAttrVal key (lastAttrIn key (some (π acc)) attrs) rest := rfl
        _ = lastAttrVal key (some (π (collectAttrs acc attrs))) rest := by
              rw [lastAttrIn_collect key π hπ]
        _ = some (π (accumEvents (collectAttrs acc attrs) rest)) :=
              ih (collectAttrs acc attrs)
        _ = some (π (accumEvents acc (XmlEvent.startManifest attrs :: rest))) := rfl
    | other => exact ih acc
    | readErr => exact ih acc

lemma lastBundleId_accum (evs : List XmlEvent) :
    lastBundleId evs = (accumEvents ("", "", "") evs).1 := by
  have h := lastAttrVal_accum "ExtensionBundleId" Prod.fst applyAttr_fst evs ("", "", "")
  unfold lastBundleId
  rw [h]
  rfl

lemma lastBundleName_accum (evs : List XmlEvent) :
    lastBundleName evs = (accumEvents ("", "", "") evs).2.1 := by
  have h := lastAttrVal_accum "ExtensionBundleName" (fun a => a.2.1) applyAttr_name
    evs ("", "", "")
  unfold lastBundleName
  rw [h]
  rfl

lemma lastBundleVersion_accum (evs : List XmlEvent) :
    lastBundleVersion evs = (accumEvents ("", "", "") evs).2.2 := by
  have h := lastAttrVal_accum "ExtensionBundleVersion" (fun a => a.2.2) applyAttr_version
    evs ("", "", "")
  unfold lastBundleVersion
  rw [h]
  rfl

lemma extractEntries_guard (l : List String) :
    ∀ w, (∀ f ∈ w, escapesTarget f = false) →
      ((∃ e ∈ l, escapesTarget e = true) →
        (extractEntries w l).1 = .error .ExtractError) ∧
      (∀ f ∈ (extractEntries w l).2, escapesTarget f = false) := by
  induction l with
  | nil =>
    intro w hw
    exact ⟨fun ⟨e, he, _⟩ => absurd he (List.not_mem_nil e), hw⟩
  | cons e rest ih =>
    intro w hw
    by_cases hesc : escapesTarget e = true
    · refine ⟨fun _ => ?_, ?_⟩
      · simp [extractEntries, hesc]
      · simpa [extractEntries, hesc] using hw
    · have hesc' : escapesTarget e = false := by
        cases hh : escapesTarget e
        · rfl
        · exact absurd hh hesc
      have hw' : ∀ f ∈ w ++ [e], escapesTarget f = false := by
        intro f hf
        rcases List.mem_append.mp hf with hf | hf
        · exact hw f hf
        · rw [List.mem_singleton.mp hf]
          exact hesc'
      refine ⟨?_, ?_⟩
      · rintro ⟨x, hx, hxe⟩
        rcases List.mem_cons.mp hx with rfl | hx'
        · exact absurd hxe hesc
        · simpa [extractEntries, hesc'] using
            (ih (w ++ [e]) hw').1 ⟨x, hx', hxe⟩
      · simpa [extractEntries, hesc'] using (ih (w ++ [e]) hw').2

/-
Claim theorems.
-/

/-- C1: when the install reaches the extraction step (the input exists,
carries the zxp extension, opens as an archive, yields an extension id
and the target directory is created) and the archive holds at least one
entry whose normalized relative path escapes the target through
parent-directory traversal at any depth, the install fails with
ExtractError and every entry actually materialized lies inside the
target (no escaping entry is written). -/
theorem c1_install_rejects_traversal (env : InstallEnv)
    (h1 : env.pathExists = true)
    (h2 : is_valid_zxp_extension env.fileName = true)
    (h3 : env.openOk = true)
    (h4 : env.zipOk = true)
    (h5 : ∃ extId,
      extract_extension_id_from_zip env.tempWriteOk env.manifestDoc = .ok extId)
    (h6 : env.createDirRes = .ok ())
    (h7 : ∃ e ∈ env.entries, escapesTarget e = true) :
    (install_zxp env).1 = .error .ExtractError ∧
    ∀ f ∈ (install_zxp env).2, escapesTarget f = false := by
  obtain ⟨extId, hext⟩ := h5
  have hguard := extractEntries_guard env.entries []
    (fun f hf => absurd hf (List.not_mem_nil f))
  have herr := hguard.1 h7
  rcases hx : extractEntries [] env.entries with ⟨res, w⟩
  rw [hx] at herr
  simp at herr
  subst herr
  have hrun : install_zxp env = (.error .ExtractError, w) := by
    simp [install_zxp, openAndInstall, h1, h2, h3, h4, hext, h6, hx]
  refine ⟨by rw [hrun], ?_⟩
  intro f hf
  rw [hrun] at hf
  apply hguard.2
  rw [hx]
  exact hf

/-- Witness for C1: a concrete archive whose single payload entry
climbs out of the target. -/
theorem c1_install_rejects_traversal_witness :
    (install_zxp ⟨true, "p.zxp", true, true,
        some [.startManifest [("ExtensionBundleId", "com.x")]], true,
        .ok (), ["../evil.txt"]⟩).1 = .error .ExtractError ∧
    ∀ f ∈ (install_zxp ⟨true, "p.zxp", true, true,
        some [.startManifest [("ExtensionBundleId", "com.x")]], true,
        .ok (), ["../evil.txt"]⟩).2, escapesTarget f = false :=
  c1_install_rejects_traversal _ rfl (by decide) rfl rfl ⟨"com.x", rfl⟩ rfl
    ⟨"../evil.txt", List.mem_singleton.mpr rfl, by decide⟩

/-- C2 counterexample: a document whose first ExtensionManifest start
tag carries the non-empty bundle id "a" while a second one carries an
empty bundle id; the document contains an element with a non-empty
ExtensionBundleId, yet parsing fails with InvalidManifest because the
later empty value overwrites the earlier one. -/
theorem c2_counterexample_last_empty_overwrites :
    hasNonEmptyId [.startManifest [("ExtensionBundleId", "a")],
      .startManifest [("ExtensionBundleId", "")]] = true ∧
    parse_manifest_xml [.startManifest [("ExtensionBundleId", "a")],
      .startManifest [("ExtensionBundleId", "")]] = .error .InvalidManifest :=
  ⟨by decide, rfl⟩

/-- C2 amended: for every document read without error, parsing succeeds
with bundle_id equal to the value of the LAST ExtensionBundleId
attribute occurring on an ExtensionManifest start tag when that value
is non-empty, and fails with InvalidManifest when no such attribute
occurs or the last value is empty. -/
theorem c2_parse_last_id_decides (evs : List XmlEvent)
    (h : XmlEvent.readErr ∉ evs) :
    (lastBundleId evs = "" →
      parse_manifest_xml evs = .error .InvalidManifest) ∧
    (lastBundleId evs ≠ "" →
      ∃ info, parse_manifest_xml evs = .ok info ∧
        info.bundle_id = lastBundleId evs) := by
  have hid := lastBundleId_accum evs
  unfold parse_manifest_xml
  rw [runEvents_no_err evs h]
  rcases hacc : accumEvents ("", "", "") evs with ⟨bb, nn, vv⟩
  rw [hacc] at hid
  simp only at hid
  subst hid
  constructor
  · intro hb
    simp [hb]
  · intro hb
    simp [hb]

/-- Witness for C2: both branches of the amended statement at concrete
documents. -/
theorem c2_parse_last_id_witness :
    parse_manifest_xml [.startManifest [("ExtensionBundleName", "n")]]
      = .error .InvalidManifest ∧
    ∃ info, parse_manifest_xml [.startManifest [("ExtensionBundleId", "b")]]
      = .ok info ∧
      info.bundle_id = lastBundleId [.startManifest [("ExtensionBundleId", "b")]] :=
  ⟨(c2_parse_last_id_decides [.startManifest [("ExtensionBundleName", "n")]]
      (by decide)).1 (by decide),
   (c2_parse_last_id_decides [.startManifest [("ExtensionBundleId", "b")]]
      (by decide)).2 (by decide)⟩

/-- C4 counterexample: a document whose first qualifying
ExtensionManifest start tag carries bundle id "a" while a later one
carries "b"; the parse returns "b", so the identity is not taken from
the first qualifying element and the loop does not stop there. -/
theorem c4_counterexample_first_does_not_win :
    firstNonEmptyId [.startManifest [("ExtensionBundleId", "a"),
        ("ExtensionBundleName", "na"), ("ExtensionBundleVersion", "1.0")],
      .startManifest [("ExtensionBundleId", "b")]] = some "a" ∧
    parse_manifest_xml [.startManifest [("ExtensionBundleId", "a"),
        ("ExtensionBundleName", "na"), ("ExtensionBundleVersion", "1.0")],
      .startManifest [("ExtensionBundleId", "b")]] = .ok ⟨"b", "na", "1.0"⟩ ∧
    ("b" : String) ≠ "a" :=
  ⟨by decide, rfl, by decide⟩

/-- C4 amended: parsing scans the whole document; each of the three
attributes independently takes the value of its LAST occurrence over
all ExtensionManifest start tags, and on an error-free document whose
last bundle id is non-empty the returned identity is built from those
final values with the name and version fallbacks. -/
theorem c4_parse_uses_last_occurrences (evs : List XmlEvent)
    (h : XmlEvent.readErr ∉ evs) (hb : lastBundleId evs ≠ "") :
    parse_manifest_xml evs = .ok
      { bundle_id := lastBundleId evs
        name := if lastBundleName evs = "" then lastBundleId evs
                else lastBundleName evs
        version := if lastBundleVersion evs = "" then "Unknown"
                   else lastBundleVersion evs } := by
  have hid := lastBundleId_accum evs
  have hnm := lastBundleName_accum evs
  have hvs := lastBundleVersion_accum evs
  unfold parse_manifest_xml
  rw [runEvents_no_err evs h]
  rcases hacc : accumEvents ("", "", "") evs with ⟨bb, nn, vv⟩
  rw [hacc] at hid hnm hvs
  simp only at hid hnm hvs
  subst hid
  subst hnm
  subst hvs
  simp [hb]

/-- Witness for C4: the amended statement at a two-element document
whose later tag overrides the id while the earlier tag supplies name
and version. -/
theorem c4_parse_uses_last_occurrences_witness :
    parse_manifest_xml [.startManifest [("ExtensionBundleId", "a"),
        ("ExtensionBundleName", "na"), ("ExtensionBundleVersion", "1.0")],
      .startManifest [("ExtensionBundleId", "b")]] = .ok
      { bundle_id := lastBundleId [.startManifest [("ExtensionBundleId", "a"),
          ("ExtensionBundleName", "na"), ("ExtensionBundleVersion", "1.0")],
        .startManifest [("ExtensionBundleId", "b")]]
        name := if lastBundleName [.startManifest [("ExtensionBundleId", "a"),
            ("ExtensionBundleName", "na"), ("ExtensionBundleVersion", "1.0")],
          .startManifest [("ExtensionBundleId", "b")]] = ""
          then lastBundleId [.startManifest [("ExtensionBundleId", "a"),
            ("ExtensionBundleName", "na"), ("ExtensionBundleVersion", "1.0")],
          .startManifest [("ExtensionBundleId", "b")]]
          else lastBundleName [.startManifest [("ExtensionBundleId", "a"),
            ("ExtensionBundleName", "na"), ("ExtensionBundleVersion", "1.0")],
          .startManifest [("ExtensionBundleId", "b")]]
        version := if lastBundleVersion [.startManifest [("ExtensionBundleId", "a"),
            ("ExtensionBundleName", "na"), ("ExtensionBundleVersion", "1.0")],
          .startManifest [("ExtensionBundleId", "b")]] = ""
          then "Unknown"
          else lastBundleVersion [.startManifest [("ExtensionBundleId", "a"),
            ("ExtensionBundleName", "na"), ("ExtensionBundleVersion", "1.0")],
          .startManifest [("ExtensionBundleId", "b")]] } :=
  c4_parse_uses_last_occurrences _ (by decide) (by decide)

/-- C5: whenever the fixed extension root directory does not exist, the
scan returns a successful empty list rather than an error. -/
theorem c5_scan_missing_root_is_empty_ok (env : ScanEnv)
    (h : env.rootExists = false) : scan_cep_plugins env = .ok [] := by
  simp [scan_cep_plugins, h]

/-- Witness for C5 at a concrete environment whose root is missing even
though reading it would fail. -/
theorem c5_scan_missing_root_witness :
    scan_cep_plugins ⟨false, .error .PermissionDenied⟩ = .ok [] :=
  c5_scan_missing_root_is_empty_ok ⟨false, .error .PermissionDenied⟩ rfl

/-- C6: install rejects a missing path with FileNotFound, then a
non-"zxp" extension (case-insensitive, missing extension included) with
InvalidExtension; a name ending in ".ZXP" passes the check and the
archive-opening stage runs. -/
theorem c6_install_validation_order (env : InstallEnv) :
    (env.pathExists = false → install_zxp env = (.error .FileNotFound, [])) ∧
    (env.pathExists = true → is_valid_zxp_extension env.fileName = false →
      install_zxp env = (.error .InvalidExtension, [])) ∧
    (env.pathExists = true → is_valid_zxp_extension env.fileName = true →
      install_zxp env = openAndInstall env) ∧
    is_valid_zxp_extension "plugin.ZXP" = true ∧
    is_valid_zxp_extension "plugin.zxp" = true ∧
    pathExtension "plugin" = none ∧
    is_valid_zxp_extension "plugin" = false ∧
    is_valid_zxp_extension "plugin.zip" = false := by
  refine ⟨?_, ?_, ?_, by decide, by decide, by decide, by decide, by decide⟩
  · intro h
    simp [install_zxp, h]
  · intro h1 h2
    simp [install_zxp, h1, h2]
  · intro h1 h2
    simp [install_zxp, h1, h2]

/-- Witness for C6: the three validation outcomes at concrete
environments, the third with an upper-case ".ZXP" name. -/
theorem c6_install_validation_witness :
    install_zxp ⟨false, "p.zxp", true, true, none, true, .ok (), []⟩ =
      (.error .FileNotFound, []) ∧
    install_zxp ⟨true, "p.txt", true, true, none, true, .ok (), []⟩ =
      (.error .InvalidExtension, []) ∧
    install_zxp ⟨true, "p.ZXP", false, true, none, true, .ok (), []⟩ =
      openAndInstall ⟨true, "p.ZXP", false, true, none, true, .ok (), []⟩ :=
  ⟨(c6_install_validation_order _).1 rfl,
   (c6_install_validation_order _).2.1 rfl (by decide),
   (c6_install_validation_order _).2.2.1 rfl (by decide)⟩

/-- C7: remove fails with FileNotFound on a missing path and with the
InvalidExtension kind (the code's "not a valid directory" outcome) on an
existing non-directory, in both cases without invoking the recursive
deletion; on an existing directory the recursive deletion runs and a
successful deletion yields Ok. -/
theorem c7_remove_plugin_checks (env : RemoveEnv) :
    (env.pathExists = false → remove_plugin env = (.error .FileNotFound, false)) ∧
    (env.pathExists = true → env.isDir = false →
      remove_plugin env = (.error .InvalidExtension, false)) ∧
    (env.pathExists = true → env.isDir = true →
      (remove_plugin env).2 = true ∧
      (env.removeRes = .ok () → remove_plugin env = (.ok (), true))) := by
  refine ⟨?_, ?_, ?_⟩
  · intro h
    simp [remove_plugin, h]
  · intro h1 h2
    simp [remove_plugin, h1, h2]
  · intro h1 h2
    constructor
    · cases hr : env.removeRes with
      | ok u => cases u; simp [remove_plugin, h1, h2, hr]
      | error k => cases k <;> simp [remove_plugin, h1, h2, hr]
    · intro hr
      simp [remove_plugin, h1, h2, hr]

/-- Witness for C7: the three outcomes at concrete environments, the
second on an existing regular file. -/
theorem c7_remove_plugin_witness :
    remove_plugin ⟨false, false, .ok ()⟩ = (.error .FileNotFound, false) ∧
    remove_plugin ⟨true, false, .ok ()⟩ = (.error .InvalidExtension, false) ∧
    remove_plugin ⟨true, true, .ok ()⟩ = (.ok (), true) :=
  ⟨(c7_remove_plugin_checks _).1 rfl,
   (c7_remove_plugin_checks _).2.1 rfl rfl,
   ((c7_remove_plugin_checks _).2.2 rfl rfl).2 rfl⟩

/-- C8: the size formatter uses base-1024 thresholds, printing bytes
below 1024, kilobytes with one decimal below 1024 * 1024, megabytes
with one decimal above, and the three sample values print as stated. -/
theorem c8_format_size_thresholds (n : Nat) :
    (n < 1024 → format_size n = toString n ++ " B") ∧
    (1024 ≤ n → n < 1024 * 1024 → format_size n = fmtOneDec n 1024 "KB") ∧
    (1024 * 1024 ≤ n → format_size n = fmtOneDec n (1024 * 1024) "MB") ∧
    format_size 512 = "512 B" ∧
    format_size 2048 = "2.0 KB" ∧
    format_size (3 * 1024 * 1024) = "3.0 MB" := by
  refine ⟨?_, ?_, ?_, by decide, by decide, by decide⟩
  · intro h
    simp [format_size, h]
  · intro h1 h2
    have h1' : ¬ n < 1024 := by omega
    simp [format_size, h1', h2]
  · intro h
    have h1' : ¬ n < 1024 := by omega
    have h2' : ¬ n < 1024 * 1024 := by omega
    simp [format_size, h1', h2']

/-- Witness for C8: each threshold branch taken at a concrete count. -/
theorem c8_format_size_witness :
    format_size 500 = toString 500 ++ " B" ∧
    format_size 1536 = fmtOneDec 1536 1024 "KB" ∧
    format_size (5 * 1024 * 1024) = fmtOneDec (5 * 1024 * 1024) (1024 * 1024) "MB" :=
  ⟨(c8_format_size_thresholds 500).1 (by decide),
   (c8_format_size_thresholds 1536).2.1 (by decide) (by decide),
   (c8_format_size_thresholds (5 * 1024 * 1024)).2.2.1 (by decide)⟩

/-- C9: classification is the pure function of the identifier string
that tests the reserved "com.adobe." beginning, Native on a match and
the third-party kind (the code's Installed) otherwise, with the two
sample identifiers as stated. -/
theorem c9_classification_pure (s : String) :
    (determine_plugin_type s = .Native ↔ startsWithStr s "com.adobe." = true) ∧
    (determine_plugin_type s = .Installed ↔ startsWithStr s "com.adobe." = false) ∧
    determine_plugin_type "com.adobe.foo" = .Native ∧
    determine_plugin_type "com.example.bar" = .Installed := by
  refine ⟨?_, ?_, by decide, by decide⟩
  · unfold determine_plugin_type
    by_cases h : startsWithStr s "com.adobe." = true
    · simp [h]
    · simp [h]
  · unfold determine_plugin_type
    by_cases h : startsWithStr s "com.adobe." = true
    · simp [h]
    · simp [h]

/-- C10: every successful parse returns three non-empty fields, an
empty-valued ExtensionBundleName attribute triggers the bundle-id
fallback exactly like an absent one, and an empty-valued
ExtensionBundleVersion attribute triggers the "Unknown" fallback
exactly like an absent one. -/
theorem c10_parse_fields_nonempty :
    (∀ (evs : List XmlEvent) (info : PluginInfo),
       parse_manifest_xml evs = .ok info →
       info.bundle_id ≠ "" ∧ info.name ≠ "" ∧ info.version ≠ "") ∧
    parse_manifest_xml
        [.startManifest [("ExtensionBundleId", "x"), ("ExtensionBundleName", "")]]
      = .ok ⟨"x", "x", "Unknown"⟩ ∧
    parse_manifest_xml [.startManifest [("ExtensionBundleId", "x")]]
      = .ok ⟨"x", "x", "Unknown"⟩ ∧
    parse_manifest_xml
        [.startManifest [("ExtensionBundleId", "x"), ("ExtensionBundleName", ""),
          ("ExtensionBundleVersion", "")]]
      = .ok ⟨"x", "x", "Unknown"⟩ ∧
    parse_manifest_xml
        [.startManifest [("ExtensionBundleId", "x"), ("ExtensionBundleName", "nm"),
          ("ExtensionBundleVersion", "7")]]
      = .ok ⟨"x", "nm", "7"⟩ := by
  refine ⟨?_, rfl, rfl, rfl, rfl⟩
  intro evs info h
  unfold parse_manifest_xml at h
  cases hr : runEvents ("", "", "") evs with
  | error e =>
    rw [hr] at h
    exact absurd h (by simp)
  | ok acc =>
    rcases acc with ⟨b, n, v⟩
    rw [hr] at h
    by_cases hb : b = ""
    · simp [hb] at h
    · simp [hb] at h
      rcases h with rfl
      refine ⟨hb, ?_, ?_⟩
      · by_cases hn : n = "" <;> simp [hn]
        exact hb
      · by_cases hv : v = "" <;> simp [hv]

/-- Witness for C10: the non-emptiness consequence at a concrete
document. -/
theorem c10_parse_fields_witness :
    (PluginInfo.mk "x" "x" "Unknown").bundle_id ≠ "" ∧
    (PluginInfo.mk "x" "x" "Unknown").name ≠ "" ∧
    (PluginInfo.mk "x" "x" "Unknown").version ≠ "" :=
  c10_parse_fields_nonempty.1 [.startManifest [("ExtensionBundleId", "x")]]
    (PluginInfo.mk "x" "x" "Unknown") rfl

/-- C3: after posting a Success text and then an Error text before the
first timer fires, the slot holds the Error text; the first post's
timer (token 0) was cancelled, so resolving it changes nothing but the
pending set; the slot is cleared to the empty None state exactly when
the second post's own timer (token 1) resolves, in either resolution
order; every reachable slot after the second post shows the second text
or is cleared, never the first text; and the timers carry the
category-dependent durations 3 and 4. -/
theorem c3_second_post_supersedes (a b : String) :
    (show_message b .Error (show_message a .Success initState)).slot
      = ⟨b, .Error⟩ ∧
    (show_message b .Error (show_message a .Success initState)).cancelled = [0] ∧
    (show_message b .Error (show_message a .Success initState)).pending
      = [(1, timeoutSecs .Error), (0, timeoutSecs .Success)] ∧
    timeoutSecs .Success = 3 ∧ timeoutSecs .Error = 4 ∧
    fireTimer 0 (show_message b .Error (show_message a .Success initState))
      = { slot := ⟨b, .Error⟩, nextId := 2, activeToken := some 1,
          cancelled := [0], pending := [(1, 4)] } ∧
    (fireTimer 1 (fireTimer 0 (show_message b .Error (show_message a .Success initState)))).slot
      = ⟨"", .None⟩ ∧
    (fireTimer 1 (show_message b .Error (show_message a .Success initState))).slot
      = ⟨"", .None⟩ ∧
    (fireTimer 0 (fireTimer 1 (show_message b .Error (show_message a .Success initState)))).slot
      = ⟨"", .None⟩ :=
  ⟨rfl, rfl, rfl, rfl, rfl, rfl, rfl, rfl, rfl⟩

end ZxpManager
